import Mathlib

/-!
Shallow embedding of the vacation-request service in `src/app.py`.

Modelling conventions:
* Calendar dates are modelled as `Nat` day numbers on an axis where day 0
  falls on a Monday, so Python's `date.weekday()` (Monday = 0 … Sunday = 6)
  becomes `d % 7`.  Comparisons of the stored ISO-8601 date strings in the
  source coincide with chronological (hence numeric) order, so requests
  store the day numbers directly.
* The JSON payload of the submit endpoint is abstracted as an optional pair
  of optional date fields; a present field is either a parseable ISO string
  (carrying the day number it denotes) or a malformed string, mirroring the
  two possible behaviours of `datetime.fromisoformat`.
* Python exceptions that escape the handler (the `ValueError` raised by
  `get_employee` and by `datetime.fromisoformat`) are modelled as dedicated
  outcome constructors, distinct from the handler's own `4xx` returns.
* The mutable module-level dictionaries (`employees`, `managers`,
  `vacation_requests`) become an explicit `State` record threaded through
  the operations.
-/

/-- An employee record: `{"name": ..., "remaining_vacation_days": ...}`. -/
structure Employee where
  name : String
  remaining_vacation_days : Int
deriving DecidableEq

/-- One entry of the `vacation_requests` ledger, with the fields the source
appends in `make_vacation_request`. -/
structure Request where
  request_id : Nat
  applicant : Nat
  status : String
  processed_by : Option Nat
  request_submitted_at : Nat
  vacation_start_date : Nat
  vacation_end_date : Nat
deriving DecidableEq

/-- The module-level mutable state of `app.py`: the request ledger and the
two directories (managers carry only a display name). -/
structure State where
  vacation_requests : List Request
  employees : Nat → Option Employee
  managers : Nat → Option String

/-- The seeded initial state of the module (`employees`, `managers` dummy
data, empty ledger). -/
def initial_state : State where
  vacation_requests := []
  employees := fun employee_id =>
    if employee_id = 1 then some { name := "John Doe", remaining_vacation_days := 20 }
    else if employee_id = 2 then some { name := "Jane Smith", remaining_vacation_days := 20 }
    else none
  managers := fun manager_id =>
    if manager_id = 1 then some "Manager 1"
    else if manager_id = 2 then some "Manager 2"
    else none

/-- `get_employee`: returns the employee record, or raises
`ValueError("Employee not found with ID: ...")` (modelled as `.error`). -/
def get_employee (s : State) (employee_id : Nat) : Except String Employee :=
  match s.employees employee_id with
  | some e => .ok e
  | none => .error ("Employee not found with ID: " ++ toString employee_id)

/-- `is_manager`: membership test in the `managers` dictionary. -/
def is_manager (s : State) (manager_id : Nat) : Bool :=
  (s.managers manager_id).isSome

/-- A date field of the JSON payload: either a string `fromisoformat` parses
(abstracted to the day number it denotes) or one it rejects. -/
inductive DateField where
  | valid (day : Nat)
  | malformed (text : String)
deriving DecidableEq

/-- `datetime.fromisoformat`: yields the date, or raises
`ValueError("Invalid isoformat string: ...")` (modelled as `.error`). -/
def fromisoformat : DateField → Except String Nat
  | .valid day => .ok day
  | .malformed text => .error ("Invalid isoformat string: " ++ text)

/-- The JSON body of a submit call; each date key may be absent. -/
structure SubmitData where
  vacation_start_date : Option DateField
  vacation_end_date : Option DateField
deriving DecidableEq

/-- Every way `make_vacation_request` can terminate, one constructor per
`return`/uncaught-raise site of the source. -/
inductive SubmitOutcome where
  /-- Uncaught `ValueError` from `get_employee` (no HTTP response is built). -/
  | raisedEmployeeNotFound (msg : String)
  /-- `400 {"error": "Invalid request data"}`: body missing or a date key absent. -/
  | invalidRequestData
  /-- Uncaught `ValueError` from `datetime.fromisoformat`. -/
  | raisedInvalidIso (msg : String)
  /-- `400 {"error": "End date must be after start date"}`. -/
  | endNotAfterStart
  /-- `400 {"error": "Not enough remaining vacation days"}`. -/
  | notEnoughDays
  /-- `201 {"message": ...}`: the body returned on success. -/
  | created (message : String)
deriving DecidableEq

/-- The business-day computation inlined in `make_vacation_request`:
`request_duration = (end - start).days + 1` iterations, counting the days
`start, start+1, ...` whose weekday is Monday–Friday (`weekday() < 5`). -/
def business_day_count (start_date end_date : Nat) : Nat :=
  let request_duration := end_date - start_date + 1
  ((List.range request_duration).map fun i => start_date + i).countP
    fun current_date => decide (current_date % 7 < 5)

/-- `make_vacation_request(employee_id)` with body `data`; `now` is the
`datetime.now()` timestamp recorded on the created record.  Returns the
outcome together with the state after the call.  (The source's
`if not employee` branch after `get_employee` is dead code — the lookup
raises instead of returning a falsy value — and has no counterpart here.) -/
def make_vacation_request (employee_id : Nat) (data : Option SubmitData)
    (now : Nat) (s : State) : SubmitOutcome × State :=
  match get_employee s employee_id with
  | .error msg => (.raisedEmployeeNotFound msg, s)
  | .ok employee =>
    match data with
    | none => (.invalidRequestData, s)
    | some d =>
      match d.vacation_start_date, d.vacation_end_date with
      | none, _ => (.invalidRequestData, s)
      | some _, none => (.invalidRequestData, s)
      | some sf, some ef =>
        match fromisoformat sf with
        | .error msg => (.raisedInvalidIso msg, s)
        | .ok start_date =>
          match fromisoformat ef with
          | .error msg => (.raisedInvalidIso msg, s)
          | .ok end_date =>
            if end_date ≤ start_date then (.endNotAfterStart, s)
            else
              let vacation_duration := business_day_count start_date end_date
              if employee.remaining_vacation_days < (vacation_duration : Int) then
                (.notEnoughDays, s)
              else
                let new_request : Request :=
                  { request_id := s.vacation_requests.length + 1
                    applicant := employee_id
                    status := "pending"
                    processed_by := none
                    request_submitted_at := now
                    vacation_start_date := start_date
                    vacation_end_date := end_date }
                (.created "Vacation request submitted",
                  { s with
                    employees := fun id =>
                      if id = employee_id then
                        some { employee with
                          remaining_vacation_days :=
                            employee.remaining_vacation_days - (vacation_duration : Int) }
                      else s.employees id
                    vacation_requests := s.vacation_requests ++ [new_request] })

/-- Outcome of `get_remaining_vacation_days` (read-only endpoint). -/
inductive RemainingOutcome where
  /-- Uncaught `ValueError` from `get_employee`. -/
  | raisedEmployeeNotFound (msg : String)
  /-- `200 {"remaining_vacation_days": ...}`. -/
  | ok (remaining_vacation_days : Int)
deriving DecidableEq

/-- `get_remaining_vacation_days(employee_id)`: looks the employee up
(raising on an unknown id) and returns the balance. -/
def get_remaining_vacation_days (employee_id : Nat) (s : State) : RemainingOutcome :=
  match get_employee s employee_id with
  | .error msg => .raisedEmployeeNotFound msg
  | .ok employee => .ok employee.remaining_vacation_days

/-- The JSON body of a process call; the `status` key may be absent. -/
structure ProcessData where
  status : Option String
deriving DecidableEq

/-- Every way `process_request` can terminate, one constructor per `return`
site of the source. -/
inductive ProcessOutcome where
  /-- `401 {"error": "Unauthorized"}`. -/
  | unauthorized
  /-- `400 {"error": "Invalid request data"}`: body or `status` key missing. -/
  | invalidRequestData
  /-- `400 {"error": "Invalid status"}`. -/
  | invalidStatus
  /-- `404 {"error": "Request not found"}`. -/
  | notFound
  /-- `400 {"error": "Request has already been processed"}`. -/
  | alreadyProcessed
  /-- `200 {"message": "Request has been <status>"}`. -/
  | processed (status : String)
deriving DecidableEq

/-- In-place mutation of the first list element satisfying `p`, as done to
the dictionary found by the `for req in vacation_requests` scan. -/
def update_first (p : α → Bool) (f : α → α) : List α → List α
  | [] => []
  | x :: xs => if p x then f x :: xs else x :: update_first p f xs

/-- `process_request(manager_id, request_id)` with body `data`: authorize,
validate the status value, locate the request by id (first match wins),
and approve/reject it if still pending. -/
def process_request (manager_id request_id : Nat) (data : Option ProcessData)
    (s : State) : ProcessOutcome × State :=
  if ¬ is_manager s manager_id then (.unauthorized, s)
  else
    match data with
    | none => (.invalidRequestData, s)
    | some d =>
      match d.status with
      | none => (.invalidRequestData, s)
      | some status =>
        if ¬ (status = "approved" ∨ status = "rejected") then (.invalidStatus, s)
        else
          match s.vacation_requests.find? (fun req => req.request_id == request_id) with
          | none => (.notFound, s)
          | some request_to_process =>
            if request_to_process.status = "pending" then
              (.processed status,
                { s with
                  vacation_requests :=
                    update_first (fun req => req.request_id == request_id)
                      (fun req => { req with status := status, processed_by := some manager_id })
                      s.vacation_requests })
            else (.alreadyProcessed, s)

/-- The pairwise condition of `get_overlapping_requests`: different
applicants, both approved, and the four-way inclusive endpoint-containment
test on the date ranges. -/
def overlap_cond (request1 request2 : Request) : Prop :=
  request1.applicant ≠ request2.applicant ∧
  request1.status = "approved" ∧
  request2.status = "approved" ∧
  ((request1.vacation_start_date ≤ request2.vacation_start_date ∧
      request2.vacation_start_date ≤ request1.vacation_end_date) ∨
   (request1.vacation_start_date ≤ request2.vacation_end_date ∧
      request2.vacation_end_date ≤ request1.vacation_end_date) ∨
   (request2.vacation_start_date ≤ request1.vacation_start_date ∧
      request1.vacation_start_date ≤ request2.vacation_end_date) ∨
   (request2.vacation_start_date ≤ request1.vacation_end_date ∧
      request1.vacation_end_date ≤ request2.vacation_end_date))

instance (request1 request2 : Request) : Decidable (overlap_cond request1 request2) := by
  unfold overlap_cond; infer_instance

/-- Placeholder record used to express out-of-range indexing (never reached:
the loops below only index within bounds). -/
def dummy_request : Request :=
  { request_id := 0, applicant := 0, status := "", processed_by := none
    request_submitted_at := 0, vacation_start_date := 0, vacation_end_date := 0 }

/-- The nested loops of `get_overlapping_requests`: `for i in range(n)`,
`for j in range(i + 1, n)` (Python's `range(a, b)` is `List.range' a (b - a)`),
appending the pair `(reqs[i], reqs[j])` whenever the condition holds.  (The
stray `, 200` on the append line of the source builds a discarded tuple and
has no effect.) -/
def overlap_scan (reqs : List Request) : List (Request × Request) :=
  (List.range reqs.length).flatMap fun i =>
    (List.range' (i + 1) (reqs.length - (i + 1))).filterMap fun j =>
      if overlap_cond (reqs.getD i dummy_request) (reqs.getD j dummy_request) then
        some (reqs.getD i dummy_request, reqs.getD j dummy_request)
      else none

/-- Outcome of `get_overlapping_requests` (read-only endpoint). -/
inductive OverlapOutcome where
  /-- `401 {"error": "Unauthorized"}`. -/
  | unauthorized
  /-- `200` with the list of pairs. -/
  | ok (pairs : List (Request × Request))
deriving DecidableEq

/-- `get_overlapping_requests(manager_id)`: authorize, then run the pairwise
scan over the ledger. -/
def get_overlapping_requests (manager_id : Nat) (s : State) : OverlapOutcome :=
  if ¬ is_manager s manager_id then .unauthorized
  else .ok (overlap_scan s.vacation_requests)

/-- Modelled from the spec (§7 error taxonomy): the submit failures the spec
files under `InvalidInput` — a missing body or date key (the handler's
`400 "Invalid request data"`), an unparseable date (the `ValueError` raised
by `fromisoformat`), and a bad date ordering (`400 "End date must be after
start date"`). -/
def submit_invalid_input : SubmitOutcome → Bool
  | .invalidRequestData => true
  | .raisedInvalidIso _ => true
  | .endNotAfterStart => true
  | _ => false

/-- Modelled from the spec: the inputs claimed to make submit fail with
`InvalidInput` — a date field missing or unparseable, or (both parseable)
end date ≤ start date. -/
def submit_input_invalid (data : Option SubmitData) : Prop :=
  match data with
  | none => True
  | some d =>
    d.vacation_start_date = none ∨ d.vacation_end_date = none ∨
    (∃ text, d.vacation_start_date = some (.malformed text)) ∨
    (∃ text, d.vacation_end_date = some (.malformed text)) ∨
    (∃ start_day end_day, d.vacation_start_date = some (.valid start_day) ∧
      d.vacation_end_date = some (.valid end_day) ∧ end_day ≤ start_day)

/-- Modelled from the spec (§4.2): the number of calendar days in the
inclusive span `[start, end]` whose day-of-week is Monday through Friday. -/
def weekday_count (start_date end_date : Nat) : Nat :=
  ((Finset.Icc start_date end_date).filter fun d => d % 7 < 5).card

/-- Modelled from the spec (§4.5): two inclusive `[start, end]` ranges
intersect. -/
def ranges_intersect (request1 request2 : Request) : Prop :=
  max request1.vacation_start_date request2.vacation_start_date ≤
    min request1.vacation_end_date request2.vacation_end_date

instance (request1 request2 : Request) : Decidable (ranges_intersect request1 request2) := by
  unfold ranges_intersect; infer_instance

/-- Modelled from the spec (§4.5): a pair qualifies iff both requests are
approved, the applicants differ, and the date ranges intersect. -/
def spec_overlap_pred (request1 request2 : Request) : Prop :=
  request1.status = "approved" ∧ request2.status = "approved" ∧
  request1.applicant ≠ request2.applicant ∧ ranges_intersect request1 request2

instance (request1 request2 : Request) : Decidable (spec_overlap_pred request1 request2) := by
  unfold spec_overlap_pred; infer_instance

/-- Modelled from the spec (§4.5): the qualifying pairs `(ledger[i],
ledger[j])`, each emitted exactly once, enumerated in ascending `(i, j)`
order with `i < j` over ledger order. -/
def spec_overlap_pairs (reqs : List Request) : List (Request × Request) :=
  (List.range reqs.length).flatMap fun i =>
    ((List.range reqs.length).filter fun j => decide (i < j)).filterMap fun j =>
      if spec_overlap_pred (reqs.getD i dummy_request) (reqs.getD j dummy_request) then
        some (reqs.getD i dummy_request, reqs.getD j dummy_request)
      else none

/-- One mutating API call: a submit or a process with arbitrary arguments.
(The remaining endpoints are read-only.) -/
inductive Step : State → State → Prop
  | submit (employee_id : Nat) (data : Option SubmitData) (now : Nat) (s : State) :
      Step s (make_vacation_request employee_id data now s).2
  | process (manager_id request_id : Nat) (data : Option ProcessData) (s : State) :
      Step s (process_request manager_id request_id data s).2

/-- States reachable from the seeded initial state by mutating API calls. -/
def Reachable (s : State) : Prop :=
  Relation.ReflTransGen Step initial_state s

/-- The ledger-shape invariant of the claims: the `k`-th request (0-based
position) carries id `k + 1`. -/
def ledger_ids_ok (reqs : List Request) : Prop :=
  ∀ k r, reqs.get? k = some r → r.request_id = k + 1

/-- Concrete scenario state: employee 1 has submitted day 0 to day 1 from
the seeded state (ledger holds one pending request with id 1). -/
def demo_submitted_state : State :=
  (make_vacation_request 1 (some ⟨some (.valid 0), some (.valid 1)⟩) 0 initial_state).2

/-- Concrete scenario state: manager 1 has then approved request 1. -/
def demo_processed_state : State :=
  (process_request 1 1 (some ⟨some "approved"⟩) demo_submitted_state).2

/-- Concrete scenario state: two approved requests from different employees
with inclusive ranges `[0, 4]` and `[3, 7]` (the overlapping-pair scenario
of the spec, day-numbered). -/
def demo_overlap_state : State :=
  { initial_state with
    vacation_requests :=
      [{ request_id := 1, applicant := 1, status := "approved", processed_by := some 1
         request_submitted_at := 0, vacation_start_date := 0, vacation_end_date := 4 },
       { request_id := 2, applicant := 2, status := "approved", processed_by := some 1
         request_submitted_at := 0, vacation_start_date := 3, vacation_end_date := 7 }] }

lemma countP_range'_eq_card_filter_Icc (p : Nat → Prop) [DecidablePred p] :
    ∀ (n a : Nat), (List.range' a (n + 1)).countP (fun d => decide (p d)) =
      ((Finset.Icc a (a + n)).filter p).card := by
  intro n
  induction n with
  | zero =>
    intro a
    simp [List.countP_cons, Finset.filter_singleton]
    by_cases h : p a <;> simp [h]
  | succ n ih =>
    intro a
    rw [List.range'_succ, List.countP_cons]
    have hIcc : Finset.Icc a (a + (n + 1)) = insert a (Finset.Icc (a + 1) (a + 1 + n)) := by
      rw [show a + 1 + n = a + (n + 1) by omega, Nat.Icc_succ_left,
        Finset.Ioc_insert_left (by omega)]
    rw [hIcc, Finset.filter_insert]
    have hnotmem : a ∉ (Finset.Icc (a + 1) (a + 1 + n)).filter p := by
      simp [Finset.mem_filter]
    by_cases h : p a
    · rw [if_pos h, Finset.card_insert_of_not_mem hnotmem, ← ih (a + 1)]
      simp [h]
    · rw [if_neg h, ← ih (a + 1)]
      simp [h]

/-- C2: for end strictly after start, the business-day count computed by
submission equals the number of calendar days in the inclusive span
`[start, end]` whose day-of-week is Monday through Friday; a span lying
wholly within Monday–Friday of one week yields the calendar span length,
and a Saturday-to-Sunday span yields 0.  (The computation is a pure
function of the two dates by construction.) -/
theorem business_day_count_correct (start_date end_date : Nat)
    (h : start_date < end_date) :
    business_day_count start_date end_date = weekday_count start_date end_date ∧
    (start_date % 7 + (end_date - start_date) ≤ 4 →
      business_day_count start_date end_date = end_date - start_date + 1) ∧
    (start_date % 7 = 5 → end_date = start_date + 1 →
      business_day_count start_date end_date = 0) := by
  refine ⟨?_, ?_, ?_⟩
  · unfold business_day_count weekday_count
    dsimp only
    rw [← List.range'_eq_map_range]
    have hmain := countP_range'_eq_card_filter_Icc (fun d => d % 7 < 5)
      (end_date - start_date) start_date
    rw [show start_date + (end_date - start_date) = end_date from by omega] at hmain
    exact hmain
  · intro hweek
    unfold business_day_count
    dsimp only
    have hall : ∀ d ∈ (List.range (end_date - start_date + 1)).map
        (fun i => start_date + i), (decide (d % 7 < 5)) = true := by
      intro d hd
      simp only [List.mem_map, List.mem_range] at hd
      obtain ⟨i, hi, rfl⟩ := hd
      simp only [decide_eq_true_eq]
      omega
    rw [List.countP_eq_length.mpr hall]
    simp
  · intro hsat hnext
    subst hnext
    unfold business_day_count
    dsimp only
    rw [List.countP_eq_zero]
    intro d hd
    simp only [List.mem_map, List.mem_range] at hd
    obtain ⟨i, hi, rfl⟩ := hd
    simp only [decide_eq_true_eq]
    omega

/-- Witness for `business_day_count_correct`: the span Monday day 0 to
Friday day 4 (five weekdays), checked against both characterisations. -/
theorem business_day_count_correct_witness :
    business_day_count 0 4 = weekday_count 0 4 ∧ business_day_count 0 4 = 5 := by
  have h := business_day_count_correct 0 4 (by decide)
  exact ⟨h.1, h.2.1 (by decide)⟩

/-- Computation of the submit success path: with a known employee, parseable
dates in order, and sufficient balance, the call decrements the balance and
appends the new pending request. -/
lemma submit_success_eq (employee_id : Nat) (emp : Employee)
    (start_day end_day now : Nat) (s : State)
    (hemp : s.employees employee_id = some emp)
    (horder : start_day < end_day)
    (hbal : (business_day_count start_day end_day : Int) ≤ emp.remaining_vacation_days) :
    make_vacation_request employee_id
      (some ⟨some (.valid start_day), some (.valid end_day)⟩) now s =
      (.created "Vacation request submitted",
        { s with
          employees := fun id =>
            if id = employee_id then
              some { emp with remaining_vacation_days :=
                emp.remaining_vacation_days - (business_day_count start_day end_day : Int) }
            else s.employees id
          vacation_requests := s.vacation_requests ++
            [{ request_id := s.vacation_requests.length + 1
               applicant := employee_id
               status := "pending"
               processed_by := none
               request_submitted_at := now
               vacation_start_date := start_day
               vacation_end_date := end_day }] }) := by
  unfold make_vacation_request get_employee fromisoformat
  rw [hemp]
  dsimp only
  rw [if_neg (by omega), if_neg (by exact not_lt.mpr hbal)]

/-- C1 (counterexample): the claim's final clause "the created record is
returned" is false — the endpoint returns only the fixed body
`201 {"message": "Vacation request submitted"}`.  Two successful
submissions for employee 1 from the seeded state, with different end dates
(day 0 to day 1 versus day 0 to day 2), create different records yet
return identical values, so the return value is not (and cannot determine)
the created record. -/
theorem submit_does_not_return_the_record :
    (make_vacation_request 1 (some ⟨some (.valid 0), some (.valid 1)⟩) 0 initial_state).1 =
      .created "Vacation request submitted" ∧
    (make_vacation_request 1 (some ⟨some (.valid 0), some (.valid 2)⟩) 0 initial_state).1 =
      (make_vacation_request 1 (some ⟨some (.valid 0), some (.valid 1)⟩) 0 initial_state).1 ∧
    (make_vacation_request 1 (some ⟨some (.valid 0), some (.valid 2)⟩) 0
        initial_state).2.vacation_requests ≠
      (make_vacation_request 1 (some ⟨some (.valid 0), some (.valid 1)⟩) 0
        initial_state).2.vacation_requests := by
  refine ⟨by decide, by decide, by decide⟩

/-- C1 (amended): for a known employee, present and parseable dates with
end strictly after start, and a business-day count within the remaining
balance, submit succeeds: the balance afterwards is the prior balance minus
the business-day count, exactly one request is appended at the end of the
ledger with id = previous ledger length + 1, status `"pending"`,
processed-by `none` and the given dates — and the call returns the fixed
`201` success message (the created record itself is not returned). -/
theorem submit_success_behaviour (employee_id : Nat) (emp : Employee)
    (start_day end_day now : Nat) (s : State)
    (hemp : s.employees employee_id = some emp)
    (horder : start_day < end_day)
    (hbal : (business_day_count start_day end_day : Int) ≤ emp.remaining_vacation_days) :
    (make_vacation_request employee_id
        (some ⟨some (.valid start_day), some (.valid end_day)⟩) now s).1 =
      .created "Vacation request submitted" ∧
    ((make_vacation_request employee_id
        (some ⟨some (.valid start_day), some (.valid end_day)⟩) now s).2.employees
          employee_id).map (fun e => e.remaining_vacation_days) =
      some (emp.remaining_vacation_days - (business_day_count start_day end_day : Int)) ∧
    (make_vacation_request employee_id
        (some ⟨some (.valid start_day), some (.valid end_day)⟩) now s).2.vacation_requests =
      s.vacation_requests ++
        [{ request_id := s.vacation_requests.length + 1
           applicant := employee_id
           status := "pending"
           processed_by := none
           request_submitted_at := now
           vacation_start_date := start_day
           vacation_end_date := end_day }] := by
  rw [submit_success_eq employee_id emp start_day end_day now s hemp horder hbal]
  refine ⟨rfl, ?_, rfl⟩
  simp

/-- Witness for `submit_success_behaviour`: employee 1 (balance 20) submits
day 0 (a Monday) to day 1; two business days are consumed. -/
theorem submit_success_behaviour_witness :
    (make_vacation_request 1 (some ⟨some (.valid 0), some (.valid 1)⟩) 0 initial_state).1 =
      .created "Vacation request submitted" ∧
    ((make_vacation_request 1 (some ⟨some (.valid 0), some (.valid 1)⟩) 0
        initial_state).2.employees 1).map (fun e => e.remaining_vacation_days) =
      some ((20 : Int) - (business_day_count 0 1 : Int)) ∧
    (make_vacation_request 1 (some ⟨some (.valid 0), some (.valid 1)⟩) 0
        initial_state).2.vacation_requests =
      [{ request_id := 1
         applicant := 1
         status := "pending"
         processed_by := none
         request_submitted_at := 0
         vacation_start_date := 0
         vacation_end_date := 1 }] :=
  submit_success_behaviour 1
    { name := "John Doe", remaining_vacation_days := 20 } 0 1 0 initial_state
    rfl (by decide) (by decide)

/-- C5: for a known employee with parseable, correctly ordered dates, a
business-day count strictly above the remaining balance makes submit fail
with the insufficient-balance error and leaves the whole state (balance and
ledger) unchanged; a count at most the balance never produces that failure
— the call succeeds, even when the count equals the balance exactly. -/
theorem submit_insufficient_balance (employee_id : Nat) (emp : Employee)
    (start_day end_day now : Nat) (s : State)
    (hemp : s.employees employee_id = some emp)
    (horder : start_day < end_day) :
    (emp.remaining_vacation_days < (business_day_count start_day end_day : Int) →
      make_vacation_request employee_id
        (some ⟨some (.valid start_day), some (.valid end_day)⟩) now s =
        (.notEnoughDays, s)) ∧
    ((business_day_count start_day end_day : Int) ≤ emp.remaining_vacation_days →
      (make_vacation_request employee_id
        (some ⟨some (.valid start_day), some (.valid end_day)⟩) now s).1 =
        .created "Vacation request submitted") := by
  constructor
  · intro hover
    unfold make_vacation_request get_employee fromisoformat
    rw [hemp]
    dsimp only
    rw [if_neg (by omega), if_pos hover]
  · intro hbal
    exact (submit_success_behaviour employee_id emp start_day end_day now s
      hemp horder hbal).1

/-- Witness for `submit_insufficient_balance`: employee 1 (balance 20) asks
for day 0 to day 27, which spans 20 business days — exactly the remaining
balance — and succeeds; the same span shifted to end day 28 (21 business
days) fails and leaves the state untouched. -/
theorem submit_insufficient_balance_witness :
    make_vacation_request 1 (some ⟨some (.valid 0), some (.valid 28)⟩) 0 initial_state =
      (.notEnoughDays, initial_state) ∧
    (make_vacation_request 1 (some ⟨some (.valid 0), some (.valid 27)⟩) 0 initial_state).1 =
      .created "Vacation request submitted" :=
  ⟨(submit_insufficient_balance 1
      { name := "John Doe", remaining_vacation_days := 20 } 0 28 0 initial_state
      rfl (by decide)).1 (by decide),
   (submit_insufficient_balance 1
      { name := "John Doe", remaining_vacation_days := 20 } 0 27 0 initial_state
      rfl (by decide)).2 (by decide)⟩

/-- C6: for a known employee, submit fails with an InvalidInput-classified
outcome whenever a date field is missing or unparseable, or whenever the
parsed end date is less than or equal to the start date — the latter for
every balance value, since the balance is never consulted on these paths —
and the state (balance and ledger) is unchanged.  (Missing fields yield the
handler's `400 "Invalid request data"`; an unparseable field surfaces as
the `ValueError` raised by `fromisoformat`; bad ordering yields
`400 "End date must be after start date"` — the outcomes `submit_invalid_input`
classifies under the spec's InvalidInput.) -/
theorem submit_invalid_input_behaviour (employee_id : Nat) (emp : Employee)
    (data : Option SubmitData) (now : Nat) (s : State)
    (hemp : s.employees employee_id = some emp)
    (hbad : submit_input_invalid data) :
    submit_invalid_input (make_vacation_request employee_id data now s).1 = true ∧
    (make_vacation_request employee_id data now s).2 = s := by
  unfold make_vacation_request get_employee fromisoformat
  rw [hemp]
  rcases data with _ | ⟨ds, de⟩
  · exact ⟨rfl, rfl⟩
  · rcases ds with _ | df1
    · exact ⟨rfl, rfl⟩
    · rcases de with _ | df2
      · rcases df1 with day1 | text1 <;> exact ⟨rfl, rfl⟩
      · rcases df1 with day1 | text1
        · rcases df2 with day2 | text2
          · have horder : day2 ≤ day1 := by
              simpa [submit_input_invalid] using hbad
            dsimp only
            rw [if_pos horder]
            exact ⟨rfl, rfl⟩
          · exact ⟨rfl, rfl⟩
        · exact ⟨rfl, rfl⟩

/-- Witness for `submit_invalid_input_behaviour`: employee 1 with an
unparseable start date — the call fails with an InvalidInput-class outcome
and the state is untouched. -/
theorem submit_invalid_input_behaviour_witness :
    submit_invalid_input (make_vacation_request 1
      (some ⟨some (.malformed "not-a-date"), some (.valid 1)⟩) 0 initial_state).1 = true ∧
    (make_vacation_request 1
      (some ⟨some (.malformed "not-a-date"), some (.valid 1)⟩) 0 initial_state).2 =
      initial_state :=
  submit_invalid_input_behaviour 1
    { name := "John Doe", remaining_vacation_days := 20 }
    (some ⟨some (.malformed "not-a-date"), some (.valid 1)⟩) 0 initial_state
    rfl (by simp [submit_input_invalid])

/-- C7: for an employee id absent from the directory, submit fails with the
not-found error raised by `get_employee` and leaves the state (every balance
and the ledger) unchanged, and `get_remaining_vacation_days` fails with the
same not-found error (it is read-only by construction). -/
theorem unknown_employee_not_found (employee_id : Nat) (data : Option SubmitData)
    (now : Nat) (s : State) (habsent : s.employees employee_id = none) :
    make_vacation_request employee_id data now s =
      (.raisedEmployeeNotFound ("Employee not found with ID: " ++ toString employee_id), s) ∧
    get_remaining_vacation_days employee_id s =
      .raisedEmployeeNotFound ("Employee not found with ID: " ++ toString employee_id) := by
  unfold make_vacation_request get_remaining_vacation_days get_employee
  rw [habsent]
  exact ⟨rfl, rfl⟩

/-- Witness for `unknown_employee_not_found`: employee id 3 is not seeded. -/
theorem unknown_employee_not_found_witness :
    make_vacation_request 3 none 0 initial_state =
      (.raisedEmployeeNotFound ("Employee not found with ID: " ++ toString 3),
        initial_state) ∧
    get_remaining_vacation_days 3 initial_state =
      .raisedEmployeeNotFound ("Employee not found with ID: " ++ toString 3) :=
  unknown_employee_not_found 3 none 0 initial_state rfl

/-- C10: a successful submit for employee `e` changes nothing but `e`'s
balance and the appended request: the manager directory is untouched, every
employee other than `e` is untouched, `e` itself only has its balance
decremented, and the new ledger is the old ledger (every prior request
unchanged, field for field) with the single new request appended. -/
theorem submit_success_frame (employee_id : Nat) (data : Option SubmitData)
    (now : Nat) (s : State) (msg : String) (s' : State)
    (h : make_vacation_request employee_id data now s = (.created msg, s')) :
    s'.managers = s.managers ∧
    (∀ id, id ≠ employee_id → s'.employees id = s.employees id) ∧
    (∃ emp start_day end_day,
      s.employees employee_id = some emp ∧
      s'.employees employee_id = some { emp with remaining_vacation_days :=
        emp.remaining_vacation_days - (business_day_count start_day end_day : Int) } ∧
      s'.vacation_requests = s.vacation_requests ++
        [{ request_id := s.vacation_requests.length + 1
           applicant := employee_id
           status := "pending"
           processed_by := none
           request_submitted_at := now
           vacation_start_date := start_day
           vacation_end_date := end_day }]) := by
  unfold make_vacation_request get_employee fromisoformat at h
  rcases hse : s.employees employee_id with _ | emp
  · rw [hse] at h
    simp [Prod.ext_iff] at h
  · rw [hse] at h
    rcases data with _ | ⟨ds, de⟩
    · simp [Prod.ext_iff] at h
    · rcases ds with _ | df1
      · simp [Prod.ext_iff] at h
      · rcases de with _ | df2
        · rcases df1 with day1 | text1 <;> simp [Prod.ext_iff] at h
        · rcases df1 with day1 | text1
          · rcases df2 with day2 | text2
            · dsimp only at h
              split_ifs at h with h1 h2
              · simp [Prod.ext_iff] at h
              · simp [Prod.ext_iff] at h
              · rw [Prod.mk.injEq] at h
                obtain ⟨hmsg, hs'⟩ := h
                subst hs'
                refine ⟨rfl, ?_, emp, day1, day2, rfl, ?_, rfl⟩
                · intro id hne
                  dsimp only
                  rw [if_neg hne]
                · dsimp only
                  rw [if_pos rfl]
            · simp [Prod.ext_iff] at h
          · simp [Prod.ext_iff] at h

/-- Witness for `submit_success_frame`: the successful submission of
employee 1, day 0 to day 1, from the seeded state. -/
theorem submit_success_frame_witness :
    ((make_vacation_request 1 (some ⟨some (.valid 0), some (.valid 1)⟩) 0
        initial_state).2.managers = initial_state.managers) ∧
    (make_vacation_request 1 (some ⟨some (.valid 0), some (.valid 1)⟩) 0
        initial_state).2.employees 2 = initial_state.employees 2 := by
  have h := submit_success_frame 1 (some ⟨some (.valid 0), some (.valid 1)⟩) 0
    initial_state "Vacation request submitted"
    (make_vacation_request 1 (some ⟨some (.valid 0), some (.valid 1)⟩) 0
      initial_state).2 rfl
  exact ⟨h.1, h.2.1 2 (by decide)⟩

lemma update_first_of_find? (p : α → Bool) (f : α → α) (l : List α) (r : α)
    (h : l.find? p = some r) :
    ∃ i, l.get? i = some r ∧ update_first p f l = l.set i (f r) := by
  induction l with
  | nil => simp at h
  | cons x xs ih =>
    by_cases hx : p x
    · rw [List.find?_cons_of_pos _ hx] at h
      obtain rfl : x = r := by injection h
      exact ⟨0, rfl, by simp [update_first, hx]⟩
    · rw [List.find?_cons_of_neg _ hx] at h
      obtain ⟨i, h1, h2⟩ := ih h
      exact ⟨i + 1, by simpa using h1, by simp [update_first, hx, h2]⟩

lemma find?_update_first (p : α → Bool) (f : α → α) (l : List α) (r : α)
    (h : l.find? p = some r) (hp : p (f r) = true) :
    (update_first p f l).find? p = some (f r) := by
  induction l with
  | nil => simp at h
  | cons x xs ih =>
    by_cases hx : p x
    · rw [List.find?_cons_of_pos _ hx] at h
      obtain rfl : x = r := by injection h
      simp only [update_first, if_pos hx]
      exact List.find?_cons_of_pos _ hp
    · rw [List.find?_cons_of_neg _ hx] at h
      simp only [update_first, if_neg hx]
      rw [List.find?_cons_of_neg _ hx]
      exact ih h

lemma length_update_first (p : α → Bool) (f : α → α) (l : List α) :
    (update_first p f l).length = l.length := by
  induction l with
  | nil => rfl
  | cons x xs ih =>
    by_cases hx : p x <;> simp [update_first, hx, ih]

lemma get?_update_first_request_id (p : Request → Bool) (f : Request → Request)
    (hf : ∀ x, (f x).request_id = x.request_id) (l : List Request) (k : Nat) :
    ((update_first p f l).get? k).map Request.request_id =
      (l.get? k).map Request.request_id := by
  induction l generalizing k with
  | nil => rfl
  | cons x xs ih =>
    by_cases hx : p x
    · simp only [update_first, if_pos hx]
      cases k with
      | zero => simp [hf]
      | succ k => rfl
    · simp only [update_first, if_neg hx]
      cases k with
      | zero => rfl
      | succ k => exact ih k

/-- Computation of the conflict path of `process_request`: an authorized
manager, a valid status value, and a target whose status is no longer
`"pending"` yield the already-processed error and leave the state as it
was. -/
lemma process_conflict_eq (manager_id request_id : Nat) (status : String)
    (s : State) (r : Request)
    (hmgr : is_manager s manager_id = true)
    (hst : status = "approved" ∨ status = "rejected")
    (hfind : s.vacation_requests.find? (fun req => req.request_id == request_id) = some r)
    (hpend : r.status ≠ "pending") :
    process_request manager_id request_id (some ⟨some status⟩) s =
      (.alreadyProcessed, s) := by
  unfold process_request
  rw [hmgr]
  dsimp only
  rw [if_neg (by simp), if_neg (by tauto), hfind]
  dsimp only
  rw [if_neg hpend]

/-- Inversion of the success path of `process_request`: a `200` outcome
forces an authorized manager, a valid status, a pending target found by id,
and the in-place update of that first matching ledger entry. -/
lemma process_success_inv (manager_id request_id : Nat) (data : Option ProcessData)
    (s : State) (status : String) (s' : State)
    (h : process_request manager_id request_id data s = (.processed status, s')) :
    is_manager s manager_id = true ∧
    (status = "approved" ∨ status = "rejected") ∧
    ∃ r, s.vacation_requests.find? (fun req => req.request_id == request_id) = some r ∧
      r.status = "pending" ∧
      s' = { s with vacation_requests :=
        (update_first (fun req => req.request_id == request_id)
          (fun req => { req with status := status, processed_by := some manager_id })
          s.vacation_requests) } := by
  unfold process_request at h
  by_cases h1 : is_manager s manager_id = true
  · rw [if_neg (not_not_intro h1)] at h
    rcases data with _ | ⟨_ | st⟩
    · simp [Prod.ext_iff] at h
    · simp [Prod.ext_iff] at h
    · dsimp only at h
      by_cases h2 : st = "approved" ∨ st = "rejected"
      · rw [if_neg (not_not_intro h2)] at h
        rcases hfind : (s.vacation_requests.find?
            fun req => req.request_id == request_id) with _ | r
        · rw [hfind] at h
          simp [Prod.ext_iff] at h
        · rw [hfind] at h
          dsimp only at h
          by_cases h3 : r.status = "pending"
          · rw [if_pos h3] at h
            rw [Prod.mk.injEq] at h
            obtain ⟨hout, hs'⟩ := h
            obtain rfl : st = status := by injection hout
            exact ⟨h1, h2, r, hfind, h3, hs'.symm⟩
          · rw [if_neg h3] at h
            simp [Prod.ext_iff] at h
      · rw [if_pos h2] at h
        simp [Prod.ext_iff] at h
  · rw [if_pos h1] at h
    simp [Prod.ext_iff] at h

/-- C4: a request whose status is no longer `"pending"` cannot be processed
again — any authorized manager supplying any valid new status receives the
conflict error and the state is unchanged; in particular, after a
successful process call, a second process call on the same request id by
any authorized manager with any valid status fails with the conflict error
and leaves the request exactly as the first call set it. -/
theorem process_terminal_is_conflict (s : State) :
    (∀ manager_id request_id status r,
      is_manager s manager_id = true →
      (status = "approved" ∨ status = "rejected") →
      (s.vacation_requests.find? fun req => req.request_id == request_id) = some r →
      r.status ≠ "pending" →
      process_request manager_id request_id (some ⟨some status⟩) s =
        (.alreadyProcessed, s)) ∧
    (∀ manager_id request_id data status s' manager_id2 status2,
      process_request manager_id request_id data s = (.processed status, s') →
      is_manager s' manager_id2 = true →
      (status2 = "approved" ∨ status2 = "rejected") →
      process_request manager_id2 request_id (some ⟨some status2⟩) s' =
        (.alreadyProcessed, s')) := by
  constructor
  · intro manager_id request_id status r hmgr hst hfind hpend
    exact process_conflict_eq manager_id request_id status s r hmgr hst hfind hpend
  · intro manager_id request_id data status s' manager_id2 status2 h hmgr2 hst2
    obtain ⟨hm, hst, r, hfind, hpend, rfl⟩ :=
      process_success_inv manager_id request_id data s status s' h
    have hpr : (r.request_id == request_id) = true := by
      simpa using List.find?_some hfind
    have hfind2 := find?_update_first (fun req => req.request_id == request_id)
      (fun req => { req with status := status, processed_by := some manager_id })
      s.vacation_requests r hfind (by simpa using hpr)
    refine process_conflict_eq manager_id2 request_id status2 _ _ hmgr2 hst2 hfind2 ?_
    rcases hst with rfl | rfl <;> simp

/-- Witness for `process_terminal_is_conflict`: manager 1 approves request 1
in the submitted-state scenario; manager 2 then tries to reject the same
request and gets the conflict error with the state unchanged. -/
theorem process_terminal_is_conflict_witness :
    process_request 2 1 (some ⟨some "rejected"⟩) demo_processed_state =
      (.alreadyProcessed, demo_processed_state) :=
  (process_terminal_is_conflict demo_submitted_state).2
    1 1 (some ⟨some "approved"⟩) "approved" demo_processed_state 2 "rejected"
    rfl rfl (Or.inr rfl)

/-- C8: a successful process call mutates only the target request's status
and processed-by fields — the employee directory (every balance, even on
rejection) and the manager directory are untouched, every other ledger
entry is untouched, and the target keeps its id, applicant, dates and
submission timestamp. -/
theorem process_success_mutates_only_target (manager_id request_id : Nat)
    (data : Option ProcessData) (s : State) (status : String) (s' : State)
    (h : process_request manager_id request_id data s = (.processed status, s')) :
    s'.employees = s.employees ∧ s'.managers = s.managers ∧
    ∃ i r, s.vacation_requests.get? i = some r ∧ r.request_id = request_id ∧
      s'.vacation_requests = s.vacation_requests.set i
        { r with status := status, processed_by := some manager_id } ∧
      ∀ j, j ≠ i → s'.vacation_requests.get? j = s.vacation_requests.get? j := by
  obtain ⟨hm, hst, r, hfind, hpend, rfl⟩ :=
    process_success_inv manager_id request_id data s status s' h
  obtain ⟨i, hget, hupd⟩ := update_first_of_find?
    (fun req => req.request_id == request_id)
    (fun req => { req with status := status, processed_by := some manager_id })
    s.vacation_requests r hfind
  have hid : r.request_id = request_id := by
    simpa using List.find?_some hfind
  refine ⟨rfl, rfl, i, r, hget, hid, hupd, ?_⟩
  intro j hj
  dsimp only
  rw [hupd]
  simp only [List.get?_eq_getElem?]
  exact List.getElem?_set_ne (by omega)

/-- Witness for `process_success_mutates_only_target`: the approval of
request 1 by manager 1 in the scenario state leaves employee 1's balance
where the submission put it. -/
theorem process_success_mutates_only_target_witness :
    demo_processed_state.employees = demo_submitted_state.employees ∧
    demo_processed_state.managers = demo_submitted_state.managers := by
  have h := process_success_mutates_only_target 1 1 (some ⟨some "approved"⟩)
    demo_submitted_state "approved" demo_processed_state rfl
  exact ⟨h.1, h.2.1⟩

lemma filter_range_lt (i : Nat) :
    ∀ n, (List.range n).filter (fun j => decide (i < j)) =
      List.range' (i + 1) (n - (i + 1)) := by
  intro n
  induction n with
  | zero => simp
  | succ n ih =>
    rw [List.range_succ, List.filter_append, ih]
    by_cases hin : i < n
    · have h1 : List.filter (fun j => decide (i < j)) [n] = [n] := by simp [hin]
      have h2 : n + 1 - (i + 1) = (n - (i + 1)) + 1 := by omega
      have h3 : (i + 1) + 1 * (n - (i + 1)) = n := by omega
      rw [h1, h2, List.range'_concat, h3]
    · have h1 : List.filter (fun j => decide (i < j)) [n] = [] := by simp [hin]
      rw [h1, List.append_nil]
      congr 1
      omega

lemma overlap_cond_iff_spec (r1 r2 : Request)
    (h1 : r1.vacation_start_date ≤ r1.vacation_end_date)
    (h2 : r2.vacation_start_date ≤ r2.vacation_end_date) :
    overlap_cond r1 r2 ↔ spec_overlap_pred r1 r2 := by
  unfold overlap_cond spec_overlap_pred ranges_intersect
  constructor
  · rintro ⟨ha, hs1, hs2, hd⟩
    refine ⟨hs1, hs2, ha, ?_⟩
    omega
  · rintro ⟨hs1, hs2, ha, hd⟩
    refine ⟨ha, hs1, hs2, ?_⟩
    omega

lemma overlap_scan_eq_spec (reqs : List Request)
    (hvalid : ∀ r ∈ reqs, r.vacation_start_date ≤ r.vacation_end_date) :
    overlap_scan reqs = spec_overlap_pairs reqs := by
  unfold overlap_scan spec_overlap_pairs
  apply List.flatMap_congr
  intro i hi
  rw [filter_range_lt]
  apply List.filterMap_congr
  intro j hj
  have hi' : i < reqs.length := List.mem_range.mp hi
  have hj' : j < reqs.length := by
    obtain ⟨k, hk, rfl⟩ := List.mem_range'.mp hj
    omega
  have m1 : reqs.getD i dummy_request ∈ reqs := by
    rw [List.getD_eq_getElem?_getD, List.getElem?_eq_getElem hi']
    exact List.getElem_mem hi'
  have m2 : reqs.getD j dummy_request ∈ reqs := by
    rw [List.getD_eq_getElem?_getD, List.getElem?_eq_getElem hj']
    exact List.getElem_mem hj'
  exact if_congr (overlap_cond_iff_spec _ _ (hvalid _ m1) (hvalid _ m2)) rfl rfl

/-- C3: `get_overlapping_requests` is unauthorized for every caller id not
in the manager set; for an authorized manager (given every stored range has
start ≤ end, as submission guarantees) it returns exactly the qualifying
pairs `(ledger[i], ledger[j])` with `i < j`, each emitted once, in
ascending `(i, j)` order, where a pair qualifies iff both requests are
approved, the applicants differ, and the inclusive ranges intersect — the
source's symmetric four-way endpoint-containment test being equivalent to
interval intersection on valid ranges. -/
theorem get_overlapping_requests_correct (manager_id : Nat) (s : State)
    (hvalid : ∀ r ∈ s.vacation_requests,
      r.vacation_start_date ≤ r.vacation_end_date) :
    (is_manager s manager_id = false →
      get_overlapping_requests manager_id s = .unauthorized) ∧
    (is_manager s manager_id = true →
      get_overlapping_requests manager_id s =
        .ok (spec_overlap_pairs s.vacation_requests)) ∧
    (∀ r1 r2 : Request, r1.vacation_start_date ≤ r1.vacation_end_date →
      r2.vacation_start_date ≤ r2.vacation_end_date →
      (overlap_cond r1 r2 ↔ spec_overlap_pred r1 r2)) := by
  refine ⟨?_, ?_, fun r1 r2 h1 h2 => overlap_cond_iff_spec r1 r2 h1 h2⟩
  · intro hm
    unfold get_overlapping_requests
    rw [if_pos (by simp [hm])]
  · intro hm
    unfold get_overlapping_requests
    rw [if_neg (by simp [hm]), overlap_scan_eq_spec s.vacation_requests hvalid]

/-- Witness for `get_overlapping_requests_correct`: in the two-approved-
requests scenario, manager 1 receives exactly the spec's pair enumeration
(which is nonempty — the two ranges overlap), and the unknown caller id 5
is rejected. -/
theorem get_overlapping_requests_correct_witness :
    get_overlapping_requests 1 demo_overlap_state =
      .ok (spec_overlap_pairs demo_overlap_state.vacation_requests) ∧
    spec_overlap_pairs demo_overlap_state.vacation_requests ≠ [] ∧
    get_overlapping_requests 5 demo_overlap_state = .unauthorized :=
  ⟨((get_overlapping_requests_correct 1 demo_overlap_state (by decide)).2.1 rfl),
   by decide,
   ((get_overlapping_requests_correct 5 demo_overlap_state (by decide)).1 rfl)⟩

/-- Any submit call either leaves the ledger untouched (every failure path)
or appends exactly one request carrying id = previous length + 1. -/
lemma submit_ledger_shape (employee_id : Nat) (data : Option SubmitData)
    (now : Nat) (s : State) :
    (make_vacation_request employee_id data now s).2.vacation_requests =
      s.vacation_requests ∨
    ∃ r : Request, r.request_id = s.vacation_requests.length + 1 ∧
      (make_vacation_request employee_id data now s).2.vacation_requests =
        s.vacation_requests ++ [r] := by
  unfold make_vacation_request get_employee fromisoformat
  rcases hse : s.employees employee_id with _ | emp
  · exact Or.inl rfl
  · rcases data with _ | ⟨ds, de⟩
    · exact Or.inl rfl
    · rcases ds with _ | df1
      · exact Or.inl rfl
      · rcases de with _ | df2
        · rcases df1 with day1 | text1 <;> exact Or.inl rfl
        · rcases df1 with day1 | text1
          · rcases df2 with day2 | text2
            · dsimp only
              by_cases h1 : day2 ≤ day1
              · rw [if_pos h1]
                exact Or.inl rfl
              · rw [if_neg h1]
                by_cases h2 : emp.remaining_vacation_days <
                    (business_day_count day1 day2 : Int)
                · rw [if_pos h2]
                  exact Or.inl rfl
                · rw [if_neg h2]
                  exact Or.inr ⟨_, rfl, rfl⟩
            · exact Or.inl rfl
          · exact Or.inl rfl

/-- Any process call either leaves the state untouched (every failure path)
or replaces the first ledger entry matching the request id by the same
entry with only its status and processed-by fields changed. -/
lemma process_ledger_shape (manager_id request_id : Nat)
    (data : Option ProcessData) (s : State) :
    (process_request manager_id request_id data s).2 = s ∨
    ∃ st, (process_request manager_id request_id data s).2.vacation_requests =
      update_first (fun req => req.request_id == request_id)
        (fun req => { req with status := st, processed_by := some manager_id })
        s.vacation_requests := by
  unfold process_request
  by_cases h1 : is_manager s manager_id = true
  · rw [if_neg (not_not_intro h1)]
    rcases data with _ | ⟨_ | st⟩
    · exact Or.inl rfl
    · exact Or.inl rfl
    · dsimp only
      by_cases h2 : st = "approved" ∨ st = "rejected"
      · rw [if_neg (not_not_intro h2)]
        rcases hfind : (s.vacation_requests.find?
            fun req => req.request_id == request_id) with _ | r
        · rw [hfind]
          exact Or.inl rfl
        · rw [hfind]
          dsimp only
          by_cases h3 : r.status = "pending"
          · rw [if_pos h3]
            exact Or.inr ⟨st, rfl⟩
          · rw [if_neg h3]
            exact Or.inl rfl
      · rw [if_pos h2]
        exact Or.inl rfl
  · rw [if_pos h1]
    exact Or.inl rfl

/-- Every mutating call preserves the id-equals-position ledger invariant. -/
lemma step_preserves_ledger_ids_ok (s s' : State) (hstep : Step s s')
    (hinv : ledger_ids_ok s.vacation_requests) :
    ledger_ids_ok s'.vacation_requests := by
  cases hstep with
  | submit employee_id data now =>
    rcases submit_ledger_shape employee_id data now s with h | ⟨r, hid, happ⟩
    · rw [ledger_ids_ok, h]
      exact hinv
    · intro k r' hk
      rw [happ] at hk
      rcases Nat.lt_trichotomy k s.vacation_requests.length with hlt | heq | hgt
      · rw [List.get?_append hlt] at hk
        exact hinv k r' hk
      · subst heq
        rw [List.get?_concat_length] at hk
        obtain rfl : r = r' := by injection hk
        exact hid
      · have hnone : (s.vacation_requests ++ [r]).get? k = none := by
          rw [List.get?_eq_none]
          simp only [List.length_append, List.length_cons, List.length_nil]
          omega
        rw [hnone] at hk
        cases hk
  | process manager_id request_id data =>
    rcases process_ledger_shape manager_id request_id data s with h | ⟨st, hupd⟩
    · rw [ledger_ids_ok, h]
      exact hinv
    · intro k r' hk
      rw [hupd] at hk
      have hmap := get?_update_first_request_id
        (fun req => req.request_id == request_id)
        (fun req => { req with status := st, processed_by := some manager_id })
        (fun x => rfl) s.vacation_requests k
      rw [hk] at hmap
      rcases hget : s.vacation_requests.get? k with _ | r0
      · rw [hget] at hmap
        cases hmap
      · rw [hget] at hmap
        have : r'.request_id = r0.request_id := by
          simpa using hmap
        rw [this]
        exact hinv k r0 hget

/-- Every mutating call keeps or grows the ledger; nothing is deleted. -/
lemma step_ledger_length_mono (s s' : State) (hstep : Step s s') :
    s.vacation_requests.length ≤ s'.vacation_requests.length := by
  cases hstep with
  | submit employee_id data now =>
    rcases submit_ledger_shape employee_id data now s with h | ⟨r, _, happ⟩
    · rw [h]
    · rw [happ]
      simp
  | process manager_id request_id data =>
    rcases process_ledger_shape manager_id request_id data s with h | ⟨st, hupd⟩
    · rw [h]
    · rw [hupd, length_update_first]

/-- C9: in every state reachable from the seeded initial state by submit
and process calls, the request at (0-based) position `k` carries id
`k + 1` — so ids are unique, the k-th request (1-based) has id k, and ids
strictly increase in creation order — and no single call ever shrinks the
ledger (no request is deleted). -/
theorem ledger_id_invariant (s s' : State) :
    (Reachable s → ledger_ids_ok s.vacation_requests) ∧
    (Reachable s → ∀ k1 k2 r1 r2, s.vacation_requests.get? k1 = some r1 →
      s.vacation_requests.get? k2 = some r2 →
      r1.request_id = r2.request_id → k1 = k2) ∧
    (Step s s' → s.vacation_requests.length ≤ s'.vacation_requests.length) := by
  have hids : Reachable s → ledger_ids_ok s.vacation_requests := by
    intro h
    induction h with
    | refl =>
      intro k r hk
      simp [initial_state] at hk
    | tail hab hbc ih =>
      exact step_preserves_ledger_ids_ok _ _ hbc ih
  refine ⟨hids, ?_, step_ledger_length_mono s s'⟩
  intro h k1 k2 r1 r2 h1 h2 heq
  have e1 := hids h k1 r1 h1
  have e2 := hids h k2 r2 h2
  omega

/-- Witness for `ledger_id_invariant`: the state after one successful
submission is reachable, satisfies the id-equals-position invariant, and
the submission step did not shrink the (initially empty) ledger. -/
theorem ledger_id_invariant_witness :
    ledger_ids_ok demo_submitted_state.vacation_requests ∧
    initial_state.vacation_requests.length ≤
      demo_submitted_state.vacation_requests.length := by
  have hreach : Reachable demo_submitted_state :=
    Relation.ReflTransGen.single
      (Step.submit 1 (some ⟨some (.valid 0), some (.valid 1)⟩) 0 initial_state)
  have hstep : Step initial_state demo_submitted_state :=
    Step.submit 1 (some ⟨some (.valid 0), some (.valid 1)⟩) 0 initial_state
  exact ⟨(ledger_id_invariant demo_submitted_state initial_state).1 hreach,
    (ledger_id_invariant initial_state demo_submitted_state).2.2 hstep⟩
